import Mathlib

/-!
Shallow embedding of the parts of the `proof-systems` repository that the
claims under verification concern:

* `folding/src/examples/example_decomposable_folding.rs`:
  `TestInstance::combine`, `TestWitness::combine` / `rows`,
  `TestFoldingEnv::{new, domain_size, col, challenge, selector, alpha}`,
  the `Index<TestChallenge>` impl, and the test helpers
  `add_witness` / `sub_witness`.
* `optimism/src/mips/constraints.rs`: the constraint-building `Env` and its
  `alloc_scratch` method.

The scalar field `Fp` is embedded as an arbitrary commutative ring `F`, and
the commitment curve `Curve` as an additive commutative group `G` with an
`F`-scalar action (the point operation `p.mul(challenge)` becomes `r • p`).
Evaluation tables (`Evaluations<Fp, _>.evals`, a `Vec<Fp>`) become `List F`.
-/

section Folding

variable {F G : Type}

/-- Modelled from the spec: the `Alphas` type of the folding crate is not under
`src/` (only its call sites are).  Per the spec, `new alpha` is a
single-challenge holder answering `get i = alpha ^ i`, and `combine a b r`
answers power queries by reflecting `a.get i` and `b.get i` scaled by the
folding challenge `r`. -/
inductive Alphas (F : Type) where
  | new : F → Alphas F
  | combine : Alphas F → Alphas F → F → Alphas F
deriving DecidableEq

/-- Modelled from the spec: power lookup on `Alphas` (`get(i) -> alpha^i`,
kept consistent under combination as `a.get i + r * b.get i`). -/
def Alphas.get [Monoid F] [Add F] [Mul F] : Alphas F → Nat → F
  | Alphas.new a, i => a ^ i
  | Alphas.combine a b r, i => a.get i + r * b.get i

/-- `TestInstance`: 5 commitments (3 witness columns + 2 dynamic selectors),
3 challenges, and an `Alphas` value. -/
structure TestInstance (F G : Type) where
  commitments : Fin 5 → G
  challenges : Fin 3 → F
  alphas : Alphas F

/-- `Instance::combine` for `TestInstance`:
`commitments[i] = a.commitments[i] + b.commitments[i].mul(challenge)`,
`challenges[i] = a.challenges[i] + challenge * b.challenges[i]`,
`alphas = Alphas::combine(a.alphas, b.alphas, challenge)`. -/
def TestInstance.combine [Add G] [SMul F G] [Add F] [Mul F]
    (a b : TestInstance F G) (challenge : F) : TestInstance F G where
  commitments := fun i => a.commitments i + challenge • b.commitments i
  challenges := fun i => a.challenges i + challenge * b.challenges i
  alphas := Alphas.combine a.alphas b.alphas challenge

/-- `TestWitness`: 5 evaluation tables (columns), each a vector of field
elements indexed by row. -/
def TestWitness (F : Type) := Fin 5 → List F

/-- One column of `Witness::combine`: the source iterates
`a.evals.iter_mut().zip(b.evals)` doing `*a += challenge * b` in place, so the
common prefix is combined and any remaining entries of `a` are kept unchanged
(Rust's `zip` stops at the shorter side without panicking). -/
def combineCol [Add F] [Mul F] (challenge : F) : List F → List F → List F
  | [], _ => []
  | a, [] => a
  | x :: xs, y :: ys => (x + challenge * y) :: combineCol challenge xs ys

/-- `Witness::combine` for `TestWitness`: column-wise in-place combination. -/
def TestWitness.combine [Add F] [Mul F]
    (a b : TestWitness F) (challenge : F) : TestWitness F :=
  fun i => combineCol challenge (a i) (b i)

/-- `Witness::rows` for `TestWitness`: `self[0].evals.len()`. -/
def TestWitness.rows (w : TestWitness F) : Nat :=
  (w 0).length

/-- `TestFoldingEnv`: the two instances, the current-row witnesses, and the
shifted ("next row") witnesses. -/
structure TestFoldingEnv (F G : Type) where
  instances : Fin 2 → TestInstance F G
  curr_witnesses : Fin 2 → TestWitness F
  next_witnesses : Fin 2 → TestWitness F

/-- `Vec::rotate_left(1)` on an evaluation table: `[e0, e1, ..., e_last]`
becomes `[e1, ..., e_last, e0]`.  (In Rust, `rotate_left(1)` panics on an
empty vector since `mid > len`; the theorems about it therefore assume a
positive row count.) -/
def rotateLeft1 : List F → List F
  | [] => []
  | x :: xs => xs ++ [x]

/-- `FoldingEnv::new` for `TestFoldingEnv`: clones both witnesses as the
current view and stores a `rotate_left(1)` copy of every column as the next
view. -/
def TestFoldingEnv.new (instances : Fin 2 → TestInstance F G)
    (witnesses : Fin 2 → TestWitness F) : TestFoldingEnv F G where
  instances := instances
  curr_witnesses := witnesses
  next_witnesses := fun side => fun col => rotateLeft1 (witnesses side col)

/-- `TestFoldingEnv::domain_size`: the source returns the literal `2`. -/
def TestFoldingEnv.domain_size (_env : TestFoldingEnv F G) : Nat := 2

/-- The three witness columns `A`, `B`, `C`. -/
inductive TestColumn where
  | A | B | C
deriving DecidableEq

/-- `CurrOrNext` from kimchi's gate module (row selector for a cell). -/
inductive CurrOrNext where
  | Curr | Next
deriving DecidableEq

/-- The two dynamic selectors. -/
inductive DynamicSelector where
  | SelecAdd | SelecSub
deriving DecidableEq

/-- The three challenge kinds. -/
inductive TestChallenge where
  | Beta | Gamma | JointCombiner
deriving DecidableEq

/-- `TestFoldingEnv::col`: picks the curr or next view of the given side,
then the column's evaluation table. -/
def TestFoldingEnv.col (env : TestFoldingEnv F G) (c : TestColumn)
    (curr_or_next : CurrOrNext) (side : Fin 2) : List F :=
  let wit := match curr_or_next with
    | CurrOrNext.Curr => env.curr_witnesses side
    | CurrOrNext.Next => env.next_witnesses side
  match c with
  | TestColumn.A => wit 0
  | TestColumn.B => wit 1
  | TestColumn.C => wit 2

/-- `TestFoldingEnv::challenge`: looks up the side's instance challenge at a
fixed index (`Beta -> 0`, `Gamma -> 1`, `JointCombiner -> 2`). -/
def TestFoldingEnv.challenge (env : TestFoldingEnv F G)
    (c : TestChallenge) (side : Fin 2) : F :=
  match c with
  | TestChallenge.Beta => (env.instances side).challenges 0
  | TestChallenge.Gamma => (env.instances side).challenges 1
  | TestChallenge.JointCombiner => (env.instances side).challenges 2

/-- `TestFoldingEnv::alpha`: delegates to the side's `Alphas`. -/
def TestFoldingEnv.alpha [Monoid F] [Add F] [Mul F]
    (env : TestFoldingEnv F G) (i : Nat) (side : Fin 2) : F :=
  (env.instances side).alphas.get i

/-- `TestFoldingEnv::selector`: reads the indicator column's table from the
current-row witnesses (`SelecAdd -> wit[3]`, `SelecSub -> wit[4]`). -/
def TestFoldingEnv.selector (env : TestFoldingEnv F G)
    (s : DynamicSelector) (side : Fin 2) : List F :=
  let wit := env.curr_witnesses side
  match s with
  | DynamicSelector.SelecAdd => wit 3
  | DynamicSelector.SelecSub => wit 4

/-- The `Index<TestChallenge>` impl on `TestInstance`:
`Beta -> challenges[0]`, `Gamma -> challenges[1]`,
`JointCombiner -> challenges[2]`. -/
def TestInstance.index (ins : TestInstance F G) (c : TestChallenge) : F :=
  match c with
  | TestChallenge.Beta => ins.challenges 0
  | TestChallenge.Gamma => ins.challenges 1
  | TestChallenge.JointCombiner => ins.challenges 2

/-- Largest `u32` value, `2^32 - 1`. -/
def U32_MAX : Nat := 4294967295

/-- `u32` addition as in a Rust debug build: the overflow branch is an error
(panic), embedded as `none`. -/
def checkedAdd (x y : Nat) : Option Nat :=
  if x + y ≤ U32_MAX then some (x + y) else none

/-- `u32` subtraction as in a Rust debug build: the underflow branch is an
error (panic), embedded as `none`. -/
def checkedSub (x y : Nat) : Option Nat :=
  if y ≤ x then some (x - y) else none

/-- `add_witness(a, b)`: builds the 5-column, 2-row integer witness
`[a, b, a + b, [1, 1], [0, 0]]` (selector `SelecAdd` on). -/
def add_witness (a b : Fin 2 → Nat) : Option (Fin 5 → Fin 2 → Nat) :=
  match checkedAdd (a 0) (b 0), checkedAdd (a 1) (b 1) with
  | some c1, some c2 => some ![a, b, ![c1, c2], ![1, 1], ![0, 0]]
  | _, _ => none

/-- `sub_witness(a, b)`: builds the 5-column, 2-row integer witness
`[a, b, a - b, [0, 0], [1, 1]]` (selector `SelecSub` on). -/
def sub_witness (a b : Fin 2 → Nat) : Option (Fin 5 → Fin 2 → Nat) :=
  match checkedSub (a 0) (b 0), checkedSub (a 1) (b 1) with
  | some c1, some c2 => some ![a, b, ![c1, c2], ![0, 0], ![1, 1]]
  | _, _ => none

end Folding

section Mips

/-- The MIPS column type; its declaration lives in `mips/column.rs`, outside
the provided sources, reconstructed from its uses in `mips/constraints.rs`
(`MIPSColumn::ScratchState(idx)` and `MIPSColumn::InstructionCounter`). -/
inductive MIPSColumn where
  | ScratchState : Nat → MIPSColumn
  | InstructionCounter : MIPSColumn
deriving DecidableEq

/-- The constraint-building environment `Env<Fp>` of `mips/constraints.rs`.
The element types of the `constraints` and `lookups` vectors
(`E<Fp> = Expr<ConstantExpr<Fp>, Column>` and `Lookup<E<Fp>>`) live in
external crates and are never inspected by `alloc_scratch`, so they are kept
as type parameters. -/
structure MipsEnv (E L : Type) where
  scratch_state_idx : Nat
  constraints : List E
  lookups : List L

/-- `Env::alloc_scratch`: reads `scratch_state_idx`, increments it, and
returns `MIPSColumn::ScratchState` of the pre-call value.  Rust's `&mut self`
method becomes explicit state passing. -/
def MipsEnv.alloc_scratch {E L : Type} (env : MipsEnv E L) :
    MIPSColumn × MipsEnv E L :=
  let scratch_idx := env.scratch_state_idx
  (MIPSColumn.ScratchState scratch_idx,
    { env with scratch_state_idx := env.scratch_state_idx + 1 })

/-- `n` successive calls to `alloc_scratch`, collecting the returned columns
in call order. -/
def MipsEnv.allocScratchN {E L : Type} :
    Nat → MipsEnv E L → List MIPSColumn × MipsEnv E L
  | 0, env => ([], env)
  | n + 1, env =>
    let r1 := env.alloc_scratch
    let r2 := allocScratchN n r1.2
    (r1.1 :: r2.1, r2.2)

end Mips

section ConcreteInputs

/-- Trivial concrete instance over `ℤ` used to evaluate the environment
theorems on explicit inputs. -/
def exInstance : TestInstance ℤ ℤ where
  commitments := fun _ => 0
  challenges := fun _ => 0
  alphas := Alphas.new 0

/-- Both sides set to the trivial instance. -/
def exInstances : Fin 2 → TestInstance ℤ ℤ := fun _ => exInstance

/-- Concrete 2-row witness, every column `[1, 2]`. -/
def exCombA : TestWitness ℤ := fun _ => [1, 2]

/-- Concrete 2-row witness, every column `[3, 4]`. -/
def exCombB : TestWitness ℤ := fun _ => [3, 4]

/-- Concrete 1-row witness, every column `[1]`. -/
def exRowsA : TestWitness ℤ := fun _ => [1]

/-- Concrete 2-row witness, every column `[1, 2]`, paired with `exRowsA` to
exhibit mismatched row counts. -/
def exRowsB : TestWitness ℤ := fun _ => [1, 2]

/-- Both-sides witness family with 2 rows. -/
def exEnvW : Fin 2 → TestWitness ℤ := fun _ => exCombA

/-- Both-sides witness family with 1 row. -/
def exEnvW1 : Fin 2 → TestWitness ℤ := fun _ => exRowsA

/-- The concrete witness `add_witness([1,2], [3,4])` produces. -/
def exAddW : Fin 5 → Fin 2 → Nat :=
  ![![1, 2], ![3, 4], ![4, 6], ![1, 1], ![0, 0]]

end ConcreteInputs

section Theorems

variable {F G : Type}

/-- Claim C1: for all instances `a`, `b` and every challenge `r`,
`Instance::combine(a, b, r)` returns a new instance (the embedding is pure, so
the inputs are untouched) whose commitments are
`a.commitments[i] + r * b.commitments[i]` for every `i < 5`, whose challenges
are `a.challenges[i] + r * b.challenges[i]` for every `i < 3`, and whose
alphas are `Alphas::combine(a.alphas, b.alphas, r)`. -/
theorem C1_instance_combine_linearity [CommRing F] [AddCommGroup G] [Module F G]
    (a b : TestInstance F G) (r : F) :
    (∀ i : Fin 5, (TestInstance.combine a b r).commitments i =
      a.commitments i + r • b.commitments i) ∧
    (∀ i : Fin 3, (TestInstance.combine a b r).challenges i =
      a.challenges i + r * b.challenges i) ∧
    (TestInstance.combine a b r).alphas = Alphas.combine a.alphas b.alphas r :=
  ⟨fun _ => rfl, fun _ => rfl, rfl⟩

/-- Claim C7: `Env::selector` reads the indicator column from the current-row
(unrotated) witness view of the given side, with `SelecAdd` resolving to table
index 3 and `SelecSub` to table index 4; on an environment built by
`Env::new` this is exactly the corresponding column of the input witness. -/
theorem C7_selector_curr_view (env : TestFoldingEnv F G)
    (instances : Fin 2 → TestInstance F G) (witnesses : Fin 2 → TestWitness F)
    (side : Fin 2) :
    env.selector DynamicSelector.SelecAdd side = env.curr_witnesses side 3 ∧
    env.selector DynamicSelector.SelecSub side = env.curr_witnesses side 4 ∧
    (TestFoldingEnv.new instances witnesses).selector
      DynamicSelector.SelecAdd side = witnesses side 3 ∧
    (TestFoldingEnv.new instances witnesses).selector
      DynamicSelector.SelecSub side = witnesses side 4 :=
  ⟨rfl, rfl, rfl, rfl⟩

/-- Claim C8: `Env::challenge(c, side)` returns the side's instance challenge
at the fixed index `Beta -> 0`, `Gamma -> 1`, `JointCombiner -> 2`, and this
coincides with `TestInstance`'s `Index<TestChallenge>` implementation. -/
theorem C8_challenge_index_agreement (env : TestFoldingEnv F G)
    (c : TestChallenge) (side : Fin 2) :
    env.challenge c side = (env.instances side).index c ∧
    env.challenge TestChallenge.Beta side = (env.instances side).challenges 0 ∧
    env.challenge TestChallenge.Gamma side = (env.instances side).challenges 1 ∧
    env.challenge TestChallenge.JointCombiner side =
      (env.instances side).challenges 2 := by
  refine ⟨?_, rfl, rfl, rfl⟩
  cases c <;> rfl

/-- The columns returned by `n` successive `alloc_scratch` calls are
`ScratchState k, ..., ScratchState (k + n - 1)` where `k` is the starting
`scratch_state_idx`. -/
theorem allocScratchN_fst {E L : Type} (n : Nat) : ∀ env : MipsEnv E L,
    (MipsEnv.allocScratchN n env).1 =
      (List.range n).map
        (fun j => MIPSColumn.ScratchState (env.scratch_state_idx + j)) := by
  induction n with
  | zero => intro env; rfl
  | succ n ih =>
    intro env
    have h2 : (env.alloc_scratch).2.scratch_state_idx =
        env.scratch_state_idx + 1 := rfl
    show MIPSColumn.ScratchState env.scratch_state_idx ::
        (MipsEnv.allocScratchN n (env.alloc_scratch).2).1 = _
    rw [ih, h2, List.range_succ_eq_map, List.map_cons, List.map_map]
    refine congrArg₂ List.cons ?_ ?_
    · show _ = MIPSColumn.ScratchState (env.scratch_state_idx + 0)
      rw [Nat.add_zero]
    · refine List.map_congr_left fun j _ => ?_
      show MIPSColumn.ScratchState (env.scratch_state_idx + 1 + j) =
          MIPSColumn.ScratchState (env.scratch_state_idx + (j + 1))
      congr 1
      omega

/-- Claim C9: `alloc_scratch` returns `ScratchState` of the pre-call
`scratch_state_idx`, increments `scratch_state_idx` by exactly 1, leaves the
`constraints` and `lookups` vectors unchanged, and `n` successive calls return
the pairwise-distinct columns `ScratchState k, ..., ScratchState (k+n-1)`. -/
theorem C9_alloc_scratch_frame {E L : Type} (env : MipsEnv E L) :
    (env.alloc_scratch).1 = MIPSColumn.ScratchState env.scratch_state_idx ∧
    (env.alloc_scratch).2.scratch_state_idx = env.scratch_state_idx + 1 ∧
    (env.alloc_scratch).2.constraints = env.constraints ∧
    (env.alloc_scratch).2.lookups = env.lookups ∧
    ∀ n : Nat,
      (MipsEnv.allocScratchN n env).1 =
        (List.range n).map
          (fun j => MIPSColumn.ScratchState (env.scratch_state_idx + j)) ∧
      (MipsEnv.allocScratchN n env).1.Nodup := by
  refine ⟨rfl, rfl, rfl, rfl, fun n => ⟨allocScratchN_fst n env, ?_⟩⟩
  rw [allocScratchN_fst n env]
  refine (List.nodup_range n).map ?_
  intro x y hxy
  have hx : env.scratch_state_idx + x = env.scratch_state_idx + y := by
    simpa [MIPSColumn.ScratchState.injEq] using hxy
  omega

/-- Equation lemma: combining starting from an exhausted left column. -/
theorem combineCol_nil [Add F] [Mul F] (r : F) (b : List F) :
    combineCol r [] b = [] := by
  cases b <;> rfl

/-- Equation lemma: combining against an exhausted right column keeps the
left column unchanged. -/
theorem combineCol_nil_right [Add F] [Mul F] (r : F) (a : List F) :
    combineCol r a [] = a := by
  cases a <;> rfl

/-- Equation lemma: combining two nonempty columns. -/
theorem combineCol_cons [Add F] [Mul F] (r x y : F) (xs ys : List F) :
    combineCol r (x :: xs) (y :: ys) = (x + r * y) :: combineCol r xs ys :=
  rfl

/-- A combined column keeps the length of the left column (the source mutates
`a` in place). -/
theorem combineCol_length [Add F] [Mul F] (r : F) :
    ∀ a b : List F, (combineCol r a b).length = a.length := by
  intro a
  induction a with
  | nil => intro b; rw [combineCol_nil]
  | cons x xs ih =>
    intro b
    cases b with
    | nil => rw [combineCol_nil_right]
    | cons y ys =>
      rw [combineCol_cons, List.length_cons, List.length_cons, ih ys]

/-- Entry-wise description of a combined column on the common prefix. -/
theorem combineCol_getD [Add F] [Mul F] (r d : F) :
    ∀ (a b : List F) (j : Nat), j < a.length → j < b.length →
      (combineCol r a b).getD j d = a.getD j d + r * b.getD j d := by
  intro a
  induction a with
  | nil => intro b j hja _; exact absurd hja (Nat.not_lt_zero j)
  | cons x xs ih =>
    intro b j hja hjb
    cases b with
    | nil => exact absurd hjb (Nat.not_lt_zero j)
    | cons y ys =>
      rw [combineCol_cons]
      cases j with
      | zero =>
        rw [List.getD_cons_zero, List.getD_cons_zero, List.getD_cons_zero]
      | succ j =>
        rw [List.getD_cons_succ, List.getD_cons_succ, List.getD_cons_succ]
        exact ih ys j (Nat.lt_of_succ_lt_succ hja) (Nat.lt_of_succ_lt_succ hjb)

/-- Claim C2: for witnesses `a`, `b` whose tables all have `n` rows and any
challenge `r`, every entry of `Witness::combine(a, b, r)` is the
corresponding entry of `a` plus `r` times the corresponding entry of `b`. -/
theorem C2_witness_combine_pointwise [CommRing F] (a b : TestWitness F)
    (r : F) (n : Nat) (ha : ∀ i : Fin 5, (a i).length = n)
    (hb : ∀ i : Fin 5, (b i).length = n) (i : Fin 5) (j : Nat) (hj : j < n) :
    (TestWitness.combine a b r i).getD j 0 =
      (a i).getD j 0 + r * (b i).getD j 0 := by
  have hja : j < (a i).length := by rw [ha i]; exact hj
  have hjb : j < (b i).length := by rw [hb i]; exact hj
  exact combineCol_getD r 0 (a i) (b i) j hja hjb

/-- Witness for claim C2 at a concrete input (2-row tables over `ℤ`). -/
theorem C2_pointwise_evaluated :
    (TestWitness.combine exCombA exCombB (2 : ℤ) 0).getD 1 0 =
      (exCombA 0).getD 1 0 + 2 * (exCombB 0).getD 1 0 :=
  C2_witness_combine_pointwise exCombA exCombB 2 2 (fun _ => rfl)
    (fun _ => rfl) 0 1 (by decide)

/-- Counterexample for claim C3: combining witnesses with mismatched row
counts (1 row in `a`, 2 rows in `b`) is not rejected; it still produces a
witness, here with first column `[2]` and row count 1. -/
theorem C3_counterexample :
    TestWitness.rows exRowsA = 1 ∧ TestWitness.rows exRowsB = 2 ∧
    TestWitness.combine exRowsA exRowsB (1 : ℤ) 0 = [2] ∧
    TestWitness.rows (TestWitness.combine exRowsA exRowsB (1 : ℤ)) = 1 := by
  refine ⟨rfl, rfl, ?_, rfl⟩
  show combineCol (1 : ℤ) [1] [1, 2] = [2]
  norm_num [combineCol]

/-- Claim C3 (amended): `Witness::combine(a, b, r).rows()` equals `a.rows()`
and `b.rows()` whenever `a` and `b` have equal row counts; with unequal row
counts combination is not rejected — it returns a witness whose row count is
`a.rows()`. -/
theorem C3_rows_amended [CommRing F] (a b : TestWitness F) (r : F) :
    TestWitness.rows (TestWitness.combine a b r) = TestWitness.rows a ∧
    (TestWitness.rows a = TestWitness.rows b →
      TestWitness.rows (TestWitness.combine a b r) = TestWitness.rows b) := by
  have h : TestWitness.rows (TestWitness.combine a b r) = TestWitness.rows a :=
    combineCol_length r (a 0) (b 0)
  exact ⟨h, fun hab => h.trans hab⟩

/-- Witness for the amended claim C3 at a concrete input. -/
theorem C3_rows_evaluated :
    TestWitness.rows (TestWitness.combine exCombA exCombB (2 : ℤ)) =
      TestWitness.rows exCombB :=
  (C3_rows_amended exCombA exCombB 2).2 rfl

/-- Entry-wise description of `rotate_left(1)`: index `j` of the rotated
table holds index `(j + 1) mod length` of the original. -/
theorem rotateLeft1_getD (d : F) :
    ∀ (l : List F) (j : Nat), j < l.length →
      (rotateLeft1 l).getD j d = l.getD ((j + 1) % l.length) d := by
  intro l j hj
  match l with
  | [] => simp at hj
  | x :: xs =>
    show (xs ++ [x]).getD j d = (x :: xs).getD ((j + 1) % (xs.length + 1)) d
    rcases Nat.lt_or_ge j xs.length with h | h
    · rw [List.getD_append _ _ _ _ h,
        Nat.mod_eq_of_lt (by omega : j + 1 < xs.length + 1)]
      rfl
    · have hj2 : j = xs.length := by
        have hlt : j < xs.length + 1 := by simpa using hj
        omega
      subst hj2
      rw [List.getD_append_right _ _ _ _ (Nat.le_refl _), Nat.sub_self,
        Nat.mod_self]
      rfl

/-- Claim C4: `Env::new` keeps the input witnesses as the "curr" view and
builds a "next" view in which row `j` holds row `(j + 1) mod n` of "curr";
in particular row `n - 1`'s "next" value is row 0's "curr" value. -/
theorem C4_env_next_row_rotation [CommRing F]
    (instances : Fin 2 → TestInstance F G)
    (witnesses : Fin 2 → TestWitness F) (n : Nat) (hn : 0 < n)
    (hw : ∀ (s : Fin 2) (i : Fin 5), (witnesses s i).length = n) :
    (TestFoldingEnv.new instances witnesses).curr_witnesses = witnesses ∧
    (∀ (s : Fin 2) (i : Fin 5) (j : Nat), j < n →
      ((TestFoldingEnv.new instances witnesses).next_witnesses s i).getD j 0 =
        (witnesses s i).getD ((j + 1) % n) 0) ∧
    (∀ (s : Fin 2) (i : Fin 5),
      ((TestFoldingEnv.new instances witnesses).next_witnesses s i).getD
          (n - 1) 0 =
        (witnesses s i).getD 0 0) := by
  have hnext : ∀ (s : Fin 2) (i : Fin 5) (j : Nat), j < n →
      ((TestFoldingEnv.new instances witnesses).next_witnesses s i).getD j 0 =
        (witnesses s i).getD ((j + 1) % n) 0 := by
    intro s i j hj
    have h1 := rotateLeft1_getD (0 : F) (witnesses s i) j
      (by rw [hw s i]; exact hj)
    rw [hw s i] at h1
    exact h1
  refine ⟨rfl, hnext, fun s i => ?_⟩
  have h := hnext s i (n - 1) (by omega)
  rwa [Nat.sub_add_cancel hn, Nat.mod_self] at h

/-- Witness for claim C4 at a concrete input: with 2-row tables, row 1's
"next" value is row 0's "curr" value. -/
theorem C4_env_next_row_evaluated :
    ((TestFoldingEnv.new exInstances exEnvW).next_witnesses 0 0).getD 1 0 =
      (exEnvW 0 0).getD 0 0 :=
  (C4_env_next_row_rotation exInstances exEnvW 2 (by decide)
    (fun _ _ => rfl)).2.2 0 0

/-- Counterexample for claim C5: on an environment built from 1-row
witnesses, `domain_size()` still returns 2, not the witnesses' row count. -/
theorem C5_counterexample :
    (TestFoldingEnv.new exInstances exEnvW1).domain_size ≠
      TestWitness.rows (exEnvW1 0) := by
  decide

/-- Claim C5 (amended): `Env::domain_size()` returns the constant 2
regardless of the captured witnesses; it coincides with the witnesses' row
count only when they have exactly 2 rows. -/
theorem C5_domain_size_amended (instances : Fin 2 → TestInstance F G)
    (witnesses : Fin 2 → TestWitness F) :
    (TestFoldingEnv.new instances witnesses).domain_size = 2 ∧
    (∀ s : Fin 2, TestWitness.rows (witnesses s) = 2 →
      (TestFoldingEnv.new instances witnesses).domain_size =
        TestWitness.rows (witnesses s)) :=
  ⟨rfl, fun _ h => h.symm⟩

/-- Witness for the amended claim C5: with 2-row witnesses the returned
constant agrees with the row count. -/
theorem C5_domain_size_evaluated :
    (TestFoldingEnv.new exInstances exEnvW).domain_size =
      TestWitness.rows (exEnvW 0) :=
  (C5_domain_size_amended exInstances exEnvW).2 0 rfl

/-- A witness produced by `add_witness` has selector columns
`[1, 1]` (index 3) and `[0, 0]` (index 4). -/
theorem add_witness_selectors (a b : Fin 2 → Nat) (w : Fin 5 → Fin 2 → Nat)
    (h : add_witness a b = some w) : w 3 = ![1, 1] ∧ w 4 = ![0, 0] := by
  unfold add_witness at h
  rcases hc1 : checkedAdd (a 0) (b 0) with _ | c1 <;> rw [hc1] at h
  · exact absurd h (by simp)
  · rcases hc2 : checkedAdd (a 1) (b 1) with _ | c2 <;> rw [hc2] at h
    · exact absurd h (by simp)
    · injection h with h2
      rw [← h2]
      exact ⟨rfl, rfl⟩

/-- A witness produced by `sub_witness` has selector columns
`[0, 0]` (index 3) and `[1, 1]` (index 4). -/
theorem sub_witness_selectors (a b : Fin 2 → Nat) (w : Fin 5 → Fin 2 → Nat)
    (h : sub_witness a b = some w) : w 3 = ![0, 0] ∧ w 4 = ![1, 1] := by
  unfold sub_witness at h
  rcases hc1 : checkedSub (a 0) (b 0) with _ | c1 <;> rw [hc1] at h
  · exact absurd h (by simp)
  · rcases hc2 : checkedSub (a 1) (b 1) with _ | c2 <;> rw [hc2] at h
    · exact absurd h (by simp)
    · injection h with h2
      rw [← h2]
      exact ⟨rfl, rfl⟩

/-- Claim C6: every witness produced by `add_witness` or `sub_witness`
satisfies selector exclusivity at every row — exactly one of the two selector
columns (index 3, `SelecAdd`; index 4, `SelecSub`) equals 1 and the other
equals 0. -/
theorem C6_selector_exclusivity (a b : Fin 2 → Nat)
    (w : Fin 5 → Fin 2 → Nat)
    (h : add_witness a b = some w ∨ sub_witness a b = some w) (row : Fin 2) :
    (w 3 row = 1 ∧ w 4 row = 0) ∨ (w 3 row = 0 ∧ w 4 row = 1) := by
  rcases h with h | h
  · obtain ⟨h3, h4⟩ := add_witness_selectors a b w h
    left
    rw [h3, h4]
    fin_cases row <;> exact ⟨rfl, rfl⟩
  · obtain ⟨h3, h4⟩ := sub_witness_selectors a b w h
    right
    rw [h3, h4]
    fin_cases row <;> exact ⟨rfl, rfl⟩

/-- Witness for claim C6 at a concrete input. -/
theorem C6_exclusivity_evaluated :
    (exAddW 3 0 = 1 ∧ exAddW 4 0 = 0) ∨
    (exAddW 3 0 = 0 ∧ exAddW 4 0 = 1) :=
  C6_selector_exclusivity ![1, 2] ![3, 4] exAddW (Or.inl (by decide)) 0

/-- Claim C10: under the precondition `b[i] <= a[i]`, `sub_witness(a, b)` is
total and returns `[a, b, a - b, [0, 0], [1, 1]]` (the underflow error branch
is unreachable), while the input `a = [0, 0]`, `b = [1, 1]` underflows and
returns no witness. -/
theorem C10_sub_witness_totality :
    (∀ a b : Fin 2 → Nat, (∀ i, b i ≤ a i) →
      sub_witness a b =
        some ![a, b, ![a 0 - b 0, a 1 - b 1], ![0, 0], ![1, 1]]) ∧
    sub_witness ![0, 0] ![1, 1] = none := by
  constructor
  · intro a b h
    unfold sub_witness checkedSub
    rw [if_pos (h 0), if_pos (h 1)]
  · decide

/-- Witness for claim C10 at a concrete input. -/
theorem C10_sub_witness_evaluated :
    sub_witness ![5, 3] ![2, 1] =
      some ![![5, 3], ![2, 1], ![3, 2], ![0, 0], ![1, 1]] := by
  rw [C10_sub_witness_totality.1 ![5, 3] ![2, 1] (by decide)]
  decide

end Theorems
